import Mathlib

/-!
Shallow embedding of the Digital-Library repository's data-access layer:
the Book schema with its borrow/return loan lifecycle (source file
`src/unnamed/part_000`, a mongoose Book model) and the annotation model
(`src/Backend/model/annotations.js`) with like-toggling, soft deletion and
the non-deleted query helpers.

Modelling conventions:
* Mongo ObjectIds are opaque identifiers compared by string equality in the
  source (`record.user.toString() === userId.toString()`); they are modelled
  as `Nat` with decidable equality.
* Dates are modelled as `Nat` (day granularity). The source reads the wall
  clock (`new Date()`, `Date.now` defaults); every operation that does so
  takes an explicit `now : Nat` parameter instead, as the design notes
  prescribe (inject a clock).  `dueDate.setDate(dueDate.getDate() + 14)`
  becomes `now + 14`.
* `this.save()` persists the mutated document in an external database; the
  store itself is out of scope, so each operation returns the updated
  document.  A thrown JS `Error` is an `Except.error`; in both `borrowBook`
  and `returnBook` the source throws before mutating `this`, so on failure
  the caller's document is unchanged — `borrowBookRun`/`returnBookRun`
  make that explicit.
* Copy counters are `Nat`: the schema declares `min: 0` for `totalCopies`
  and `availableCopies`, so `0 ≤ availableCopies` holds by type.
* Schema fields no claim touches (description, genre, rating, reviews, …)
  are elided from the record types; the operations do not read or write
  them (`{ b with … }` keeps every other field).
-/

namespace DigitalLibrary

/-- One entry of a book's embedded `borrowHistory` ledger
(source `part_000` lines 101-121): borrower id, borrow date
(schema default `Date.now`), optional return date, due date and a status
string drawn from `{borrowed, returned, overdue}`. -/
structure BorrowRecord where
  user : Nat
  borrowDate : Nat
  returnDate : Option Nat
  dueDate : Nat
  status : String
deriving DecidableEq

/-- The Book document (source `part_000` lines 3-144), restricted to the
fields the loan lifecycle reads or writes plus identifying metadata:
`availability ∈ {available, borrowed, reserved, maintenance}` (schema
default `available`), the copy counters and the embedded borrow ledger. -/
structure Book where
  title : String
  author : String
  availability : String
  totalCopies : Nat
  availableCopies : Nat
  borrowHistory : List BorrowRecord
deriving DecidableEq

/-- Source `part_000` lines 158-160: a book can be borrowed iff its
availability string is `available` and a copy is free. -/
def isAvailable (b : Book) : Bool :=
  b.availability == "available" && decide (0 < b.availableCopies)

/-- Source `part_000` lines 163-183 (`borrowBook`): throw if the book is
not available; otherwise decrement `availableCopies`, flip `availability`
to `borrowed` when the counter reaches zero, and push a fresh borrow
record (borrow date defaulted to now, due date now + 14 days, status
`borrowed`, no return date). -/
def borrowBook (b : Book) (userId : Nat) (now : Nat) : Except String Book :=
  if !(isAvailable b) then
    Except.error "Book is not available for borrowing"
  else
    let newAvail := b.availableCopies - 1
    Except.ok { b with
      availableCopies := newAvail,
      availability := if newAvail == 0 then "borrowed" else b.availability,
      borrowHistory := b.borrowHistory ++
        [{ user := userId, borrowDate := now, returnDate := none,
           dueDate := now + 14, status := "borrowed" }] }

/-- The `this.borrowHistory.find(…)` step of `returnBook` (source
`part_000` lines 187-196) together with the in-place mutation of the found
record: locate the first ledger entry whose borrower matches and whose
status is `borrowed`; if one exists, set its return date and flip its
status to `returned`, leaving every other entry untouched. `none` means no
active record exists. -/
def updateReturn (userId : Nat) (now : Nat) : List BorrowRecord → Option (List BorrowRecord)
  | [] => none
  | r :: rs =>
    if r.user == userId && r.status == "borrowed" then
      some ({ r with returnDate := some now, status := "returned" } :: rs)
    else
      (updateReturn userId now rs).map (r :: ·)

/-- Source `part_000` lines 186-204 (`returnBook`): throw if the user has
no active borrow record; otherwise close the first matching record,
increment `availableCopies` and, the counter now being positive, set
`availability` back to `available`. -/
def returnBook (b : Book) (userId : Nat) (now : Nat) : Except String Book :=
  match updateReturn userId now b.borrowHistory with
  | none => Except.error "No active borrow record found for this user"
  | some hist =>
    let newAvail := b.availableCopies + 1
    Except.ok { b with
      borrowHistory := hist,
      availableCopies := newAvail,
      availability := if 0 < newAvail then "available" else b.availability }

/-- State of the caller's document after invoking `borrowBook`: the updated
document on success, the original one on a throw (the source throws before
mutating `this`). -/
def borrowBookRun (b : Book) (userId : Nat) (now : Nat) : Book :=
  match borrowBook b userId now with
  | Except.ok b' => b'
  | Except.error _ => b

/-- State of the caller's document after invoking `returnBook`: the updated
document on success, the original one on a throw (the source throws before
mutating anything). -/
def returnBookRun (b : Book) (userId : Nat) (now : Nat) : Book :=
  match returnBook b userId now with
  | Except.ok b' => b'
  | Except.error _ => b

/-- The availability invariant of spec §4.1/§9: `availableCopies` never
exceeds `totalCopies` (nonnegativity is by type), and — absent a manual
override to `reserved` or `maintenance` — the availability string is
`borrowed` exactly when no copy is free. -/
def bookInv (b : Book) : Prop :=
  b.availableCopies ≤ b.totalCopies ∧
  (b.availability ≠ "reserved" ∧ b.availability ≠ "maintenance" →
    (b.availability = "borrowed" ↔ b.availableCopies = 0))

instance (b : Book) : Decidable (bookInv b) := by
  unfold bookInv; infer_instance

/-! ## The annotation model (`src/Backend/model/annotations.js`)

The identifier `Annot` stands for the source's annotation documents. -/

/-- One embedded reply (source `annotations.js` lines 67-82): author id,
required content string, creation time (schema default `Date.now`). -/
structure Reply where
  user : Nat
  content : String
  createdAt : Nat
deriving DecidableEq

/-- One embedded like entry (source `annotations.js` lines 83-92): liking
user's id and the like time (schema default `Date.now`). The source keeps
these in an appendable array, not a set. -/
structure Like where
  user : Nat
  likedAt : Nat
deriving DecidableEq

/-- The `content` sub-document (source `annotations.js` lines 19-30):
optional selected text and optional user note. -/
structure AnnotContent where
  selectedText : Option String
  userNote : Option String
deriving DecidableEq

/-- The `position` sub-document (source `annotations.js` lines 31-51):
required page number plus optional character offsets (the rectangle
coordinates are elided — nothing reads them). -/
structure AnnotPos where
  page : Nat
  startOffset : Option Nat
  endOffset : Option Nat
deriving DecidableEq

/-- The annotation document (source `annotations.js` lines 3-103):
referenced user and book, a type string from
`{highlight, note, bookmark, comment}`, content, position, hex color
(schema default `#ffff00`), privacy flag (default `true`), lowercased
tags, embedded replies and likes, soft-delete flag (default `false`),
`lastModified` and the `timestamps` creation time. -/
structure Annot where
  user : Nat
  book : Nat
  type : String
  content : AnnotContent
  position : AnnotPos
  color : String
  isPrivate : Bool
  tags : List String
  replies : List Reply
  likes : List Like
  isDeleted : Bool
  lastModified : Nat
  createdAt : Nat
deriving DecidableEq

/-- Source `annotations.js` lines 131-133: whether some like entry belongs
to the given user. -/
def isLikedBy (a : Annot) (userId : Nat) : Bool :=
  a.likes.any fun l => l.user == userId

/-- The `findIndex` + `splice(index, 1)` pair of `toggleLike` (source
`annotations.js` lines 137-143): drop the first like entry belonging to
the user, keeping the rest in order; `none` when the user holds no like
entry (JS `findIndex` returned `-1`). -/
def removeFirstLike (userId : Nat) : List Like → Option (List Like)
  | [] => none
  | l :: ls =>
    if l.user == userId then some ls
    else (removeFirstLike userId ls).map (l :: ·)

/-- The `{action, likeCount}` object `toggleLike` returns. -/
structure ToggleResult where
  action : String
  likeCount : Nat
deriving DecidableEq

/-- Source `annotations.js` lines 136-150 (`toggleLike`): if the user
already holds a like entry, splice the first such entry out and report
`unliked`; otherwise push a new entry (like time defaulted to now) and
report `liked`. Either way `likeCount` is the length of the likes array
after the mutation. The method does not call `save()`. -/
def toggleLike (a : Annot) (userId : Nat) (now : Nat) : ToggleResult × Annot :=
  match removeFirstLike userId a.likes with
  | some newLikes =>
    ({ action := "unliked", likeCount := newLikes.length }, { a with likes := newLikes })
  | none =>
    let newLikes := a.likes ++ [{ user := userId, likedAt := now }]
    ({ action := "liked", likeCount := newLikes.length }, { a with likes := newLikes })

/-- Source `annotations.js` lines 162-165 (`softDelete`): set the
soft-delete flag and save; the pre-save middleware (lines 113-118) stamps
`lastModified` on the modified, non-new document. -/
def softDelete (a : Annot) (now : Nat) : Annot :=
  { a with isDeleted := true, lastModified := now }

/-- The sort key `{ 'position.page': 1, createdAt: 1 }` shared by the find
helpers: ascending page, then ascending creation time. -/
def pageCreatedLe (x y : Annot) : Bool :=
  decide (x.position.page < y.position.page) ||
    (x.position.page == y.position.page && decide (x.createdAt ≤ y.createdAt))

/-- The sort key `{ createdAt: -1 }` of `searchAnnotations`: descending
creation time. -/
def createdDescLe (x y : Annot) : Bool :=
  decide (y.createdAt ≤ x.createdAt)

/-- Source `annotations.js` lines 168-174 (`findUserAnnotations`): the
non-deleted documents of one user on one book, sorted by page then
creation time. The database collection is modelled as a list of
documents. -/
def findUserAnnotations (coll : List Annot) (userId : Nat) (bookId : Nat) : List Annot :=
  (coll.filter fun a => a.user == userId && a.book == bookId && a.isDeleted == false).mergeSort
    pageCreatedLe

/-- Source `annotations.js` lines 177-184 (`findPublicAnnotations`): the
non-private, non-deleted documents on one book, sorted by page then
creation time. (`populate` resolves the user reference to a display
projection through the external user service; it maps the returned
documents and changes neither their number nor which ones are returned,
so it is elided.) -/
def findPublicAnnotations (coll : List Annot) (bookId : Nat) : List Annot :=
  (coll.filter fun a => a.book == bookId && a.isPrivate == false && a.isDeleted == false).mergeSort
    pageCreatedLe

/-- Source `annotations.js` lines 187-194 (`findByType`): the non-deleted
documents of one user on one book having the given type, sorted by page
then creation time. -/
def findByType (coll : List Annot) (userId : Nat) (bookId : Nat) (ty : String) : List Annot :=
  (coll.filter fun a =>
      a.user == userId && a.book == bookId && a.type == ty && a.isDeleted == false).mergeSort
    pageCreatedLe

/-- Whether `pat` occurs at the head of `s`, character by character. -/
def startsWithChars : List Char → List Char → Bool
  | [], _ => true
  | _ :: _, [] => false
  | c :: cs, d :: ds => c == d && startsWithChars cs ds

/-- Whether `pat` occurs as a contiguous run somewhere in `s`. -/
def hasSubChars (pat : List Char) : List Char → Bool
  | [] => startsWithChars pat []
  | c :: cs => startsWithChars pat (c :: cs) || hasSubChars pat cs

/-- The `$regex: query, $options: 'i'` test of `searchAnnotations`:
case-insensitive substring containment of the query in the field. -/
def containsCI (hay : String) (q : String) : Bool :=
  hasSubChars q.toLower.data hay.toLower.data

/-- The `$or` disjunction of `searchAnnotations` (source `annotations.js`
lines 201-205): the query matches the selected text, the user note (a
missing field matches nothing), or some tag. -/
def matchesQuery (q : String) (a : Annot) : Bool :=
  (match a.content.selectedText with
   | some s => containsCI s q
   | none => false) ||
  (match a.content.userNote with
   | some s => containsCI s q
   | none => false) ||
  a.tags.any fun t => containsCI t q

/-- Source `annotations.js` lines 197-208 (`searchAnnotations`): the
non-deleted documents of one user whose content or tags match the query
case-insensitively, newest first. (`populate('book', …)` resolves the book
reference for display and is elided as in `findPublicAnnotations`.) -/
def searchAnnotations (coll : List Annot) (userId : Nat) (q : String) : List Annot :=
  (coll.filter fun a => a.user == userId && a.isDeleted == false && matchesQuery q a).mergeSort
    createdDescLe

/-- Construction of a fresh annotation document with the schema defaults
applied (source `annotations.js` lines 3-103): the caller supplies the
required references, type, content and position; `color` defaults to
`#ffff00`, `isPrivate` to `true`, `tags`/`replies`/`likes` to empty,
`isDeleted` to `false`, and the timestamps to the creation instant. -/
def createAnnot (userId : Nat) (bookId : Nat) (ty : String) (ct : AnnotContent)
    (pos : AnnotPos) (now : Nat) : Annot :=
  { user := userId, book := bookId, type := ty, content := ct, position := pos,
    color := "#ffff00", isPrivate := true, tags := [], replies := [], likes := [],
    isDeleted := false, lastModified := now, createdAt := now }

/-! ## Helper lemmas on the loan ledger -/

/-- When the ledger holds no active record for the user, the search of
`returnBook` comes up empty. -/
theorem updateReturn_eq_none (u now : Nat) (l : List BorrowRecord)
    (h : (l.any fun r => r.user == u && r.status == "borrowed") = false) :
    updateReturn u now l = none := by
  induction l with
  | nil => rfl
  | cons r rs ih =>
    simp only [List.any_cons, Bool.or_eq_false_iff] at h
    simp [updateReturn, h.1, ih h.2]

/-- When the ledger holds an active record for the user, `returnBook`'s
search closes the first one and leaves everything around it alone. -/
theorem updateReturn_eq_some (u now : Nat) (l : List BorrowRecord)
    (h : (l.any fun r => r.user == u && r.status == "borrowed") = true) :
    ∃ pre r post,
      l = pre ++ r :: post ∧
      (∀ r' ∈ pre, (r'.user == u && r'.status == "borrowed") = false) ∧
      r.user = u ∧ r.status = "borrowed" ∧
      updateReturn u now l =
        some (pre ++ { r with returnDate := some now, status := "returned" } :: post) := by
  induction l with
  | nil => simp at h
  | cons r rs ih =>
    by_cases hr : (r.user == u && r.status == "borrowed") = true
    · obtain ⟨hu, hs⟩ := Bool.and_eq_true_iff.mp hr
      exact ⟨[], r, rs, rfl, by simp, beq_iff_eq.mp hu, beq_iff_eq.mp hs,
        by simp [updateReturn, hr]⟩
    · have h' : (rs.any fun r => r.user == u && r.status == "borrowed") = true := by
        simp only [List.any_cons, Bool.or_eq_true] at h
        exact h.resolve_left hr
      obtain ⟨pre, r0, post, hl, hpre, hu, hs, hup⟩ := ih h'
      refine ⟨r :: pre, r0, post, by rw [List.cons_append, hl], ?_, hu, hs, ?_⟩
      · intro r' hr'
        rcases List.mem_cons.mp hr' with h1 | h1
        · exact h1 ▸ Bool.eq_false_iff.mpr hr
        · exact hpre r' h1
      · simp [updateReturn, hr, hup]

/-! ## Concrete documents used by counterexamples and witnesses -/

/-- A fully stocked one-copy book whose ledger nevertheless holds an open
borrow record for user 7 — a state satisfying `bookInv`, reachable e.g.
through the lost-update race of spec §5 or a manual edit, on which
`returnBook` overshoots `totalCopies`. -/
def staleBook : Book :=
  { title := "t", author := "a", availability := "available",
    totalCopies := 1, availableCopies := 1,
    borrowHistory :=
      [{ user := 7, borrowDate := 0, returnDate := none, dueDate := 14, status := "borrowed" }] }

/-- A two-copy book with one copy out on loan to user 3. -/
def loanedBook : Book :=
  { title := "t", author := "a", availability := "available",
    totalCopies := 2, availableCopies := 1,
    borrowHistory :=
      [{ user := 3, borrowDate := 0, returnDate := none, dueDate := 14, status := "borrowed" }] }

/-- `loanedBook` after user 5 borrows the last copy at time 50. -/
def loanedBookAfterBorrow : Book :=
  { title := "t", author := "a", availability := "borrowed",
    totalCopies := 2, availableCopies := 0,
    borrowHistory :=
      [{ user := 3, borrowDate := 0, returnDate := none, dueDate := 14, status := "borrowed" },
       { user := 5, borrowDate := 50, returnDate := none, dueDate := 64, status := "borrowed" }] }

/-- `loanedBook` after user 3 returns their copy at time 50. -/
def loanedBookAfterReturn : Book :=
  { title := "t", author := "a", availability := "available",
    totalCopies := 2, availableCopies := 2,
    borrowHistory :=
      [{ user := 3, borrowDate := 0, returnDate := some 50, dueDate := 14, status := "returned" }] }

/-- A book out of copies, on which borrowing fails. -/
def emptyBook : Book :=
  { title := "t", author := "a", availability := "borrowed",
    totalCopies := 1, availableCopies := 0,
    borrowHistory :=
      [{ user := 3, borrowDate := 0, returnDate := none, dueDate := 14, status := "borrowed" }] }

/-! ## Claim theorems for the loan lifecycle -/

/-- C1 (counterexample). The claim says `returnBook` preserves the
availability invariant, but it does not: on `staleBook` — which satisfies
the invariant with `availableCopies = totalCopies = 1` and an open borrow
record for user 7 — the return succeeds and drives `availableCopies` to 2,
beyond `totalCopies`. -/
theorem returnBook_inv_cex :
    bookInv staleBook ∧
    ∃ b', returnBook staleBook 7 20 = Except.ok b' ∧ ¬ bookInv b' :=
  ⟨by decide, _, rfl, by decide⟩

/-- C1 (amended). `borrowBook` preserves the availability invariant
`availableCopies ≤ totalCopies` (nonnegativity holds by type) together
with "`availability = borrowed` iff `availableCopies = 0`, absent a
manual override to reserved/maintenance"; `returnBook` preserves it
provided a copy is actually out, i.e. `availableCopies < totalCopies`
before the call — without that proviso the counterexample above applies. -/
theorem loanOps_preserve_inv (b : Book) (u now : Nat) :
    (∀ b', bookInv b → borrowBook b u now = Except.ok b' → bookInv b') ∧
    (∀ b', bookInv b → b.availableCopies < b.totalCopies →
      returnBook b u now = Except.ok b' → bookInv b') := by
  constructor
  · intro b' hinv heq
    by_cases hA : isAvailable b = true
    · have hbe : b.availability = "available" ∧ 0 < b.availableCopies := by
        simpa [isAvailable] using hA
      simp only [borrowBook, hA, Bool.not_true, Bool.false_eq_true, if_false,
        Except.ok.injEq] at heq
      subst heq
      refine ⟨Nat.le_trans (Nat.sub_le _ _) hinv.1, ?_⟩
      intro _
      by_cases hz : b.availableCopies - 1 = 0
      · simp [hz]
      · have : (b.availableCopies - 1 == 0) = false := by
          simpa using hz
        simp [this, hz, hbe.1]
    · simp [borrowBook, Bool.eq_false_iff.mpr hA] at heq
  · intro b' hinv hlt heq
    cases hup : updateReturn u now b.borrowHistory with
    | none => simp [returnBook, hup] at heq
    | some hist =>
      simp only [returnBook, hup, Except.ok.injEq] at heq
      subst heq
      exact ⟨hlt, by simp⟩

/-- C1 (witness): the amended theorem applied to `loanedBook`, which
satisfies the invariant and has a copy out, for both a borrow by user 5
and a return by user 3. -/
theorem loanOps_preserve_inv_app :
    bookInv loanedBook ∧
    loanedBook.availableCopies < loanedBook.totalCopies ∧
    bookInv loanedBookAfterBorrow ∧ bookInv loanedBookAfterReturn :=
  ⟨by decide, by decide,
    (loanOps_preserve_inv loanedBook 5 50).1 loanedBookAfterBorrow (by decide) rfl,
    (loanOps_preserve_inv loanedBook 3 50).2 loanedBookAfterReturn (by decide) (by decide)
      rfl⟩

/-- C2 (confirmed). When `isAvailable` holds, `borrowBook` succeeds,
`availableCopies` drops by exactly one, and exactly one borrow record is
appended to the ledger: borrower `u`, status `borrowed`, borrow date `now`
and due date 14 days after the borrow date. -/
theorem borrowBook_effect (b : Book) (u now : Nat) (h : isAvailable b = true) :
    ∃ b' rec,
      borrowBook b u now = Except.ok b' ∧
      b'.availableCopies + 1 = b.availableCopies ∧
      b'.borrowHistory = b.borrowHistory ++ [rec] ∧
      rec.user = u ∧ rec.status = "borrowed" ∧ rec.returnDate = none ∧
      rec.borrowDate = now ∧ rec.dueDate = rec.borrowDate + 14 := by
  have hbe : b.availability = "available" ∧ 0 < b.availableCopies := by
    simpa [isAvailable] using h
  refine ⟨{ b with
      availableCopies := b.availableCopies - 1,
      availability := if b.availableCopies - 1 == 0 then "borrowed" else b.availability,
      borrowHistory := b.borrowHistory ++
        [{ user := u, borrowDate := now, returnDate := none,
           dueDate := now + 14, status := "borrowed" }] },
    { user := u, borrowDate := now, returnDate := none,
      dueDate := now + 14, status := "borrowed" },
    ?_, Nat.succ_pred_eq_of_pos hbe.2, rfl, rfl, rfl, rfl, rfl, rfl⟩
  simp [borrowBook, h]

/-- C2 (witness): the effect theorem applied to `loanedBook` for user 5
at time 50. -/
theorem borrowBook_effect_app :
    isAvailable loanedBook = true ∧
    ∃ b' rec,
      borrowBook loanedBook 5 50 = Except.ok b' ∧
      b'.availableCopies + 1 = loanedBook.availableCopies ∧
      b'.borrowHistory = loanedBook.borrowHistory ++ [rec] ∧
      rec.user = 5 ∧ rec.status = "borrowed" ∧ rec.returnDate = none ∧
      rec.borrowDate = 50 ∧ rec.dueDate = rec.borrowDate + 14 :=
  ⟨by decide, borrowBook_effect loanedBook 5 50 (by decide)⟩

/-- C3 (confirmed). `borrowBook` throws exactly when no copy is free or
the availability string is not `available`; `isAvailable` is true exactly
when the availability string is `available` and a copy is free; the throw
happens before any mutation, so the document is unchanged on failure. -/
theorem borrowBook_fail_iff (b : Book) (u now : Nat) :
    ((∃ e, borrowBook b u now = Except.error e) ↔
      (b.availableCopies = 0 ∨ b.availability ≠ "available")) ∧
    (isAvailable b = true ↔ (b.availability = "available" ∧ 0 < b.availableCopies)) ∧
    ((∃ e, borrowBook b u now = Except.error e) ↔ isAvailable b = false) ∧
    (∀ e, borrowBook b u now = Except.error e → borrowBookRun b u now = b) := by
  have hiff : isAvailable b = true ↔ (b.availability = "available" ∧ 0 < b.availableCopies) := by
    simp [isAvailable]
  have herr : (∃ e, borrowBook b u now = Except.error e) ↔ isAvailable b = false := by
    constructor
    · rintro ⟨e, he⟩
      by_cases hA : isAvailable b = true
      · simp [borrowBook, hA] at he
      · exact Bool.eq_false_iff.mpr hA
    · intro hA
      exact ⟨"Book is not available for borrowing", by simp [borrowBook, hA]⟩
  refine ⟨?_, hiff, herr, ?_⟩
  · rw [herr, ← Bool.not_eq_true, hiff]
    constructor
    · intro hn
      by_cases hz : b.availableCopies = 0
      · exact Or.inl hz
      · exact Or.inr fun hav => hn ⟨hav, Nat.pos_of_ne_zero hz⟩
    · rintro (hz | hav) ⟨h1, h2⟩
      · omega
      · exact hav h1
  · intro e he
    simp [borrowBookRun, he]

/-- C3 (witness): on `emptyBook` (no free copy) the borrow fails and the
document is unchanged. -/
theorem borrowBook_fail_iff_app :
    borrowBookRun emptyBook 5 50 = emptyBook :=
  (borrowBook_fail_iff emptyBook 5 50).2.2.2
    "Book is not available for borrowing" rfl

/-- C4 (confirmed). When the user holds an open borrow record,
`returnBook` succeeds: the first such record in storage order — and only
it — gets status `returned` and its return date set, `availableCopies`
grows by exactly one, and afterwards the availability string is
`available` iff the new counter is positive (it always is). -/
theorem returnBook_effect (b : Book) (u now : Nat)
    (h : (b.borrowHistory.any fun r => r.user == u && r.status == "borrowed") = true) :
    ∃ pre r post b',
      b.borrowHistory = pre ++ r :: post ∧
      (∀ r' ∈ pre, ¬(r'.user = u ∧ r'.status = "borrowed")) ∧
      r.user = u ∧ r.status = "borrowed" ∧
      returnBook b u now = Except.ok b' ∧
      b'.borrowHistory =
        pre ++ { r with returnDate := some now, status := "returned" } :: post ∧
      b'.availableCopies = b.availableCopies + 1 ∧
      (b'.availability = "available" ↔ 0 < b'.availableCopies) := by
  obtain ⟨pre, r, post, hl, hpre, hu, hs, hup⟩ := updateReturn_eq_some u now b.borrowHistory h
  refine ⟨pre, r, post,
    { b with
      borrowHistory := pre ++ { r with returnDate := some now, status := "returned" } :: post,
      availableCopies := b.availableCopies + 1,
      availability := "available" },
    hl, ?_, hu, hs, ?_, rfl, rfl, by simp⟩
  · rintro r' hr' ⟨h1, h2⟩
    have := hpre r' hr'
    rw [h1, h2] at this
    simp at this
  · simp [returnBook, hup]

/-- C4 (witness): the return theorem applied to `loanedBook` for user 3 at
time 50. -/
theorem returnBook_effect_app :
    (loanedBook.borrowHistory.any fun r => r.user == 3 && r.status == "borrowed") = true ∧
    ∃ pre r post b',
      loanedBook.borrowHistory = pre ++ r :: post ∧
      (∀ r' ∈ pre, ¬(r'.user = 3 ∧ r'.status = "borrowed")) ∧
      r.user = 3 ∧ r.status = "borrowed" ∧
      returnBook loanedBook 3 50 = Except.ok b' ∧
      b'.borrowHistory =
        pre ++ { r with returnDate := some 50, status := "returned" } :: post ∧
      b'.availableCopies = loanedBook.availableCopies + 1 ∧
      (b'.availability = "available" ↔ 0 < b'.availableCopies) :=
  ⟨by decide, returnBook_effect loanedBook 3 50 (by decide)⟩

/-- C5 (confirmed). When the user holds no open borrow record,
`returnBook` throws the domain error, and — the throw preceding every
mutation — the document keeps its counters, availability and ledger. -/
theorem returnBook_fail (b : Book) (u now : Nat)
    (h : (b.borrowHistory.any fun r => r.user == u && r.status == "borrowed") = false) :
    returnBook b u now = Except.error "No active borrow record found for this user" ∧
    returnBookRun b u now = b := by
  have hup := updateReturn_eq_none u now b.borrowHistory h
  constructor
  · simp [returnBook, hup]
  · simp [returnBookRun, returnBook, hup]

/-- C5 (witness): user 9 holds no open record on `loanedBook`, so the
return fails and changes nothing. -/
theorem returnBook_fail_app :
    returnBook loanedBook 9 50 = Except.error "No active borrow record found for this user" ∧
    returnBookRun loanedBook 9 50 = loanedBook :=
  returnBook_fail loanedBook 9 50 (by decide)

/-! ## Helper lemmas on the likes array -/

/-- The splice step of `toggleLike` finds an entry exactly when
`isLikedBy` says the user holds one. -/
theorem removeFirstLike_isSome (u : Nat) (l : List Like) :
    (removeFirstLike u l).isSome = l.any fun x => x.user == u := by
  induction l with
  | nil => rfl
  | cons x xs ih =>
    by_cases hx : (x.user == u) = true <;>
      simp [removeFirstLike, hx, ih]

/-- What a successful splice does: the likes array decomposes around the
first entry of the user, and exactly that entry is dropped. -/
theorem removeFirstLike_eq_some (u : Nat) (l l' : List Like)
    (h : removeFirstLike u l = some l') :
    ∃ pre x post,
      l = pre ++ x :: post ∧ l' = pre ++ post ∧ x.user = u ∧
      ∀ y ∈ pre, (y.user == u) = false := by
  induction l generalizing l' with
  | nil => simp [removeFirstLike] at h
  | cons x xs ih =>
    by_cases hx : (x.user == u) = true
    · simp only [removeFirstLike, hx, if_true, Option.some.injEq] at h
      exact ⟨[], x, xs, rfl, h ▸ rfl, beq_iff_eq.mp hx, by simp⟩
    · simp only [removeFirstLike, hx, if_false, Bool.false_eq_true,
        Option.map_eq_some'] at h
      obtain ⟨a, ha, hxa⟩ := h
      obtain ⟨pre, y, post, h1, h2, h3, h4⟩ := ih a ha
      refine ⟨x :: pre, y, post, by rw [List.cons_append, h1], ?_, h3, ?_⟩
      · rw [← hxa, h2]; rfl
      · intro z hz
        rcases List.mem_cons.mp hz with h5 | h5
        · exact h5 ▸ Bool.eq_false_iff.mpr hx
        · exact h4 z h5

/-- When no entry belongs to the user, the splice finds nothing. -/
theorem removeFirstLike_eq_none (u : Nat) (l : List Like)
    (h : ∀ y ∈ l, (y.user == u) = false) : removeFirstLike u l = none := by
  induction l with
  | nil => rfl
  | cons x xs ih =>
    simp [removeFirstLike, h x (by simp), ih fun y hy => h y (List.mem_cons_of_mem x hy)]

/-- Splicing the user's entry out of an array that holds it only at the
very end recovers the prefix exactly. -/
theorem removeFirstLike_append (u : Nat) (l : List Like) (x : Like)
    (h : ∀ y ∈ l, (y.user == u) = false) (hx : x.user = u) :
    removeFirstLike u (l ++ [x]) = some l := by
  induction l with
  | nil => simp [removeFirstLike, hx]
  | cons z zs ih =>
    have hih := ih fun y hy => h y (List.mem_cons_of_mem z hy)
    simp [removeFirstLike, h z (by simp), hih]

/-! ## Concrete annotation documents -/

/-- A live note of user 1 on book 2 liked once by user 5. -/
def baseAnnot : Annot :=
  { user := 1, book := 2, type := "note",
    content := { selectedText := some "Hello World", userNote := none },
    position := { page := 3, startOffset := none, endOffset := none },
    color := "#ffff00", isPrivate := true, tags := ["alpha"],
    replies := [], likes := [{ user := 5, likedAt := 0 }],
    isDeleted := false, lastModified := 0, createdAt := 0 }

/-- The same note carrying two like entries of user 5 — duplicates the
source's appendable likes array admits (spec §9). -/
def dupLikesAnnot : Annot :=
  { baseAnnot with likes := [{ user := 5, likedAt := 0 }, { user := 5, likedAt := 1 }] }

/-- A schema-default creation on book 2 by user 1. -/
def freshAnnot : Annot :=
  createAnnot 1 2 "note" { selectedText := none, userNote := none }
    { page := 1, startOffset := none, endOffset := none } 0

/-! ## Claim theorems for the annotation lifecycle -/

/-- C6 (counterexample). The claim quantifies over every annotation, but
on one carrying two like entries of user 5 — a state the appendable likes
array admits — toggling twice by user 5 removes both entries: the like
count drops from 2 to 0 and user 5 leaves the membership. -/
theorem toggleLike_twice_cex :
    dupLikesAnnot.likes.length = 2 ∧
    (toggleLike (toggleLike dupLikesAnnot 5 10).2 5 11).2.likes.length = 0 ∧
    5 ∈ (dupLikesAnnot.likes.map fun x => x.user) ∧
    5 ∉ ((toggleLike (toggleLike dupLikesAnnot 5 10).2 5 11).2.likes.map fun x => x.user) := by
  decide

/-- C6 (amended). When the user holds at most one like entry — the
one-entry-per-user shape the spec intends the array to have — two
consecutive `toggleLike` calls by that user restore both the like count
and the set of users appearing among the likers. -/
theorem toggleLike_twice (a : Annot) (u t1 t2 : Nat)
    (h : (a.likes.filter fun x => x.user == u).length ≤ 1) :
    (toggleLike (toggleLike a u t1).2 u t2).2.likes.length = a.likes.length ∧
    ∀ v : Nat,
      (v ∈ ((toggleLike (toggleLike a u t1).2 u t2).2.likes.map fun x => x.user) ↔
       v ∈ (a.likes.map fun x => x.user)) := by
  cases hc : removeFirstLike u a.likes with
  | none =>
    have hall : ∀ y ∈ a.likes, (y.user == u) = false := by
      have hs := removeFirstLike_isSome u a.likes
      rw [hc] at hs
      simp only [Option.isSome_none] at hs
      intro y hy
      by_contra hcon
      rw [Bool.not_eq_false] at hcon
      have hany : (a.likes.any fun x => x.user == u) = true :=
        List.any_eq_true.mpr ⟨y, hy, hcon⟩
      rw [hany] at hs
      exact Bool.false_ne_true hs
    have h1 : (toggleLike a u t1).2 = { a with likes := a.likes ++ [{ user := u, likedAt := t1 }] } := by
      simp [toggleLike, hc]
    have h2 : removeFirstLike u (a.likes ++ [{ user := u, likedAt := t1 }]) = some a.likes :=
      removeFirstLike_append u a.likes _ hall rfl
    rw [h1]
    simp [toggleLike, h2]
  | some l' =>
    obtain ⟨pre, x, post, hl, hl', hx, hpre⟩ := removeFirstLike_eq_some u a.likes l' hc
    subst hl'
    have hpreF : pre.filter (fun y => y.user == u) = [] :=
      List.filter_eq_nil_iff.mpr fun y hy => by simp [hpre y hy]
    have hpostF : ∀ y ∈ post, (y.user == u) = false := by
      have hxT : (x.user == u) = true := beq_iff_eq.mpr hx
      rw [hl, List.filter_append, hpreF, List.filter_cons, hxT] at h
      simp only [List.nil_append, if_true, List.length_cons] at h
      have h0 : (post.filter (fun y => y.user == u)).length = 0 := by omega
      have hfil : post.filter (fun y => y.user == u) = [] := List.length_eq_zero.mp h0
      intro y hy
      by_contra hcon
      rw [Bool.not_eq_false] at hcon
      have : y ∈ post.filter (fun y => y.user == u) := List.mem_filter.mpr ⟨hy, hcon⟩
      rw [hfil] at this
      exact absurd this (List.not_mem_nil y)
    have hnone : removeFirstLike u (pre ++ post) = none := by
      apply removeFirstLike_eq_none
      intro y hy
      rcases List.mem_append.mp hy with h5 | h5
      · exact hpre y h5
      · exact hpostF y h5
    have h1 : (toggleLike a u t1).2 = { a with likes := pre ++ post } := by
      simp [toggleLike, hc]
    rw [h1]
    simp only [toggleLike, hnone]
    constructor
    · simp [hl]
    · intro v
      simp only [hl, List.map_append, List.map_cons, List.map_nil, List.mem_append,
        List.mem_cons, List.mem_singleton, List.not_mem_nil, or_false, hx]
      tauto

/-- C6 (witness): the amended theorem applied to `baseAnnot`, whose likes
array holds user 5 exactly once. -/
theorem toggleLike_twice_app :
    (baseAnnot.likes.filter fun x => x.user == 5).length ≤ 1 ∧
    ((toggleLike (toggleLike baseAnnot 5 10).2 5 11).2.likes.length = baseAnnot.likes.length ∧
     ∀ v : Nat,
       (v ∈ ((toggleLike (toggleLike baseAnnot 5 10).2 5 11).2.likes.map fun x => x.user) ↔
        v ∈ (baseAnnot.likes.map fun x => x.user))) :=
  ⟨by decide, toggleLike_twice baseAnnot 5 10 11 (by decide)⟩

/-- C7 (confirmed). When the user already appears among the likers,
`toggleLike` splices out exactly the first of their entries and reports
`unliked`; otherwise it appends one new entry for them and reports
`liked`; in both cases `likeCount` is the length of the likes array after
the mutation. -/
theorem toggleLike_spec (a : Annot) (u now : Nat) :
    (isLikedBy a u = true →
      ∃ pre x post,
        a.likes = pre ++ x :: post ∧ x.user = u ∧ (∀ y ∈ pre, y.user ≠ u) ∧
        toggleLike a u now =
          ({ action := "unliked", likeCount := (pre ++ post).length },
           { a with likes := pre ++ post })) ∧
    (isLikedBy a u = false →
      toggleLike a u now =
        ({ action := "liked", likeCount := a.likes.length + 1 },
         { a with likes := a.likes ++ [{ user := u, likedAt := now }] })) := by
  constructor
  · intro h
    have hs : (removeFirstLike u a.likes).isSome = true := by
      rw [removeFirstLike_isSome]
      exact h
    obtain ⟨l', hc⟩ := Option.isSome_iff_exists.mp hs
    obtain ⟨pre, x, post, hl, hl', hx, hpre⟩ := removeFirstLike_eq_some u a.likes l' hc
    subst hl'
    refine ⟨pre, x, post, hl, hx, ?_, ?_⟩
    · intro y hy
      exact ne_of_beq_false (hpre y hy)
    · simp [toggleLike, hc]
  · intro h
    have hn : removeFirstLike u a.likes = none := by
      have hs := removeFirstLike_isSome u a.likes
      rw [show (a.likes.any fun x => x.user == u) = false from h] at hs
      exact Option.not_isSome_iff_eq_none.mp (by rw [hs]; exact Bool.false_ne_true)
    simp [toggleLike, hn]

/-- C7 (witness): the toggle theorem applied to `baseAnnot`, liked by
user 5 and not by user 9. -/
theorem toggleLike_spec_app :
    isLikedBy baseAnnot 5 = true ∧
    (∃ pre x post,
      baseAnnot.likes = pre ++ x :: post ∧ x.user = 5 ∧ (∀ y ∈ pre, y.user ≠ 5) ∧
      toggleLike baseAnnot 5 20 =
        ({ action := "unliked", likeCount := (pre ++ post).length },
         { baseAnnot with likes := pre ++ post })) ∧
    isLikedBy baseAnnot 9 = false ∧
    toggleLike baseAnnot 9 20 =
      ({ action := "liked", likeCount := baseAnnot.likes.length + 1 },
       { baseAnnot with likes := baseAnnot.likes ++ [{ user := 9, likedAt := 20 }] }) :=
  ⟨by decide, (toggleLike_spec baseAnnot 5 20).1 (by decide),
   by decide, (toggleLike_spec baseAnnot 9 20).2 (by decide)⟩

/-- C10 (confirmed). `toggleLike` writes only the likes array: the user
and book references, type, content, position, color, privacy flag, tags,
replies and soft-delete flag of the updated document all equal those of
the original. -/
theorem toggleLike_frame (a : Annot) (u now : Nat) :
    (toggleLike a u now).2.user = a.user ∧
    (toggleLike a u now).2.book = a.book ∧
    (toggleLike a u now).2.type = a.type ∧
    (toggleLike a u now).2.content = a.content ∧
    (toggleLike a u now).2.position = a.position ∧
    (toggleLike a u now).2.color = a.color ∧
    (toggleLike a u now).2.isPrivate = a.isPrivate ∧
    (toggleLike a u now).2.tags = a.tags ∧
    (toggleLike a u now).2.replies = a.replies ∧
    (toggleLike a u now).2.isDeleted = a.isDeleted := by
  cases hc : removeFirstLike u a.likes <;> simp [toggleLike, hc]

/-- C8 (confirmed). `softDelete` sets the soft-delete flag, and the
soft-deleted document is excluded from every non-deleted query:
`findUserAnnotations`, `findPublicAnnotations`, `findByType` and
`searchAnnotations` all filter on `isDeleted: false`, whatever collection,
user, book, type or query string is involved. -/
theorem softDelete_excludes (a : Annot) (now : Nat) (coll : List Annot)
    (u bid : Nat) (ty q : String) :
    (softDelete a now).isDeleted = true ∧
    softDelete a now ∉ findUserAnnotations coll u bid ∧
    softDelete a now ∉ findPublicAnnotations coll bid ∧
    softDelete a now ∉ findByType coll u bid ty ∧
    softDelete a now ∉ searchAnnotations coll u q := by
  refine ⟨rfl, ?_, ?_, ?_, ?_⟩ <;>
  · intro hmem
    simp only [findUserAnnotations, findPublicAnnotations, findByType, searchAnnotations,
      List.mem_mergeSort, List.mem_filter] at hmem
    simp [softDelete] at hmem

/-- C8 (witness): the exclusion theorem applied to the soft-deleted
`baseAnnot` sitting alone in the collection. -/
theorem softDelete_excludes_app :
    (softDelete baseAnnot 9).isDeleted = true ∧
    softDelete baseAnnot 9 ∉ findUserAnnotations [softDelete baseAnnot 9] 1 2 :=
  ⟨(softDelete_excludes baseAnnot 9 [softDelete baseAnnot 9] 1 2 "note" "hello").1,
   (softDelete_excludes baseAnnot 9 [softDelete baseAnnot 9] 1 2 "note" "hello").2.1⟩

/-- C9 (confirmed). A document created without an explicit privacy flag
takes the schema default `isPrivate = true`; as long as the flag stands,
`findPublicAnnotations` on its book excludes it from any collection, and
once the flag is cleared the query returns it (it being in the collection,
on the queried book and not deleted). -/
theorem createAnnot_private_excluded (u bid : Nat) (ty : String) (ct : AnnotContent)
    (pos : AnnotPos) (now : Nat) (coll coll2 : List Annot)
    (h : { createAnnot u bid ty ct pos now with isPrivate := false } ∈ coll2) :
    (createAnnot u bid ty ct pos now).isPrivate = true ∧
    createAnnot u bid ty ct pos now ∉ findPublicAnnotations coll bid ∧
    { createAnnot u bid ty ct pos now with isPrivate := false } ∈
      findPublicAnnotations coll2 bid := by
  refine ⟨rfl, ?_, ?_⟩
  · intro hmem
    simp only [findPublicAnnotations, List.mem_mergeSort, List.mem_filter] at hmem
    simp [createAnnot] at hmem
  · simp only [findPublicAnnotations, List.mem_mergeSort, List.mem_filter]
    exact ⟨h, by simp [createAnnot]⟩

/-- C9 (witness): the privacy theorem applied to `freshAnnot` on book 2,
alone in the collection before and after clearing the flag. -/
theorem createAnnot_private_excluded_app :
    freshAnnot.isPrivate = true ∧
    freshAnnot ∉ findPublicAnnotations [freshAnnot] 2 ∧
    { freshAnnot with isPrivate := false } ∈
      findPublicAnnotations [{ freshAnnot with isPrivate := false }] 2 :=
  createAnnot_private_excluded 1 2 "note" { selectedText := none, userNote := none }
    { page := 1, startOffset := none, endOffset := none } 0
    [freshAnnot] [{ freshAnnot with isPrivate := false }] (by simp [freshAnnot])

end DigitalLibrary
